import Mathlib

/-!
# libretro front end of PCSX2 (`libretro/main.cpp`)

A shallow embedding of the disk-control surface, the audio hand-off buffer,
the save-state entry points, the video geometry and the reset of
`libretro/main.cpp`, with the properties proved about them.

Conventions of the embedding.

* The file-scope statics of `main.cpp` and the configuration fields it assigns
  are the fields of one record, `State`; every function takes the record and
  returns the new one (and its C return value, when it has one).
* `int` is a 32-bit two's complement integer, modelled in `Int`; `unsigned` is
  modelled in `Nat`.  The conversions `(int)index` and `image_index = index`
  are `int_of_unsigned`, which wraps modulo `2^32`.
* `const char*` is `Option String`; `none` is `nullptr`.  The string fields of
  the configuration are `String`; a `const char*` stored into one goes through
  `string_of_cstr`, which turns `nullptr` into the empty string.
* Calls into collaborators that are not part of `main.cpp` (the GS thread, the
  core thread, the CDVD tray, the host audio sink) are recorded, in program
  order, in `State.trace`.
* The save-state collaborators (`FreezeAll`, `FreezeIt`, `ThawIt`) and the
  region sizes are declared outside `main.cpp`; they are parameters
  (`SaveStateOps`, `MemSizes`), and `spec_ops` is their model after the
  specification.
-/

namespace Pcsx2

/-! ## Machine integers -/

/-- Conversion of a 32-bit `unsigned` to `int`: the value modulo `2^32`, read as
two's complement. -/
def int_of_unsigned (u : Nat) : Int :=
  if u % 2 ^ 32 < 2 ^ 31 then ((u % 2 ^ 32 : Nat) : Int)
  else ((u % 2 ^ 32 : Nat) : Int) - 2 ^ 32

/-- Conversion of an integer to `s16`: the value modulo `2^16`, read as two's
complement. -/
def to_s16 (x : Int) : Int :=
  (x + 2 ^ 15) % 2 ^ 16 - 2 ^ 15

/-- Conversion of a `const char*` to the string class of the configuration
fields (`g_Conf->CurrentIso = p`): the characters pointed to, and the empty
string for `nullptr`. -/
def string_of_cstr (p : Option String) : String :=
  p.getD ""

/-! ## Collaborators -/

/-- The members of `CDVD_SourceType` (declared in `CDVD/CDVD.h`) that
`main.cpp` names. -/
inductive CDVD_SourceType where
  | Iso
  | NoDisc
  deriving DecidableEq, Repr

/-- A call into a collaborator, or an assignment to the GS configuration, as
`main.cpp` performs them. -/
inductive Effect where
  /-- The assignment `SetGSConfig().VsyncQueueSize = n`. -/
  | SetVsyncQueueSize (n : Nat)
  /-- The call `GetMTGS().SignalVsync()`. -/
  | SignalVsync
  /-- The call `CoreThread.Pause()`. -/
  | Pause
  /-- The call `CoreThread.Resume()`. -/
  | Resume
  /-- The call `GetMTGS().Flush()`. -/
  | Flush
  /-- The call `cdvdCtrlTrayOpen()`. -/
  | cdvdCtrlTrayOpen
  /-- The call `cdvdCtrlTrayClose()`. -/
  | cdvdCtrlTrayClose
  /-- The call `CDVDsys_SetFile(srctype, path)`. -/
  | CDVDsys_SetFile (srctype : CDVD_SourceType) (path : String)
  /-- The call `saveme.FreezeAll()` on a `memSavingState`. -/
  | FreezeAll_save
  /-- The call `SPU2Savestate::FreezeIt(block)`. -/
  | FreezeIt
  /-- The call `loadme.FreezeAll()` on a `memLoadingState`. -/
  | FreezeAll_load
  /-- The call `SPU2Savestate::ThawIt(block)`. -/
  | ThawIt
  /-- The call `GetMTGS().ClosePlugin()`. -/
  | ClosePlugin
  /-- The call `GetCoreThread().ResetQuick()`. -/
  | ResetQuick
  /-- The call `GetMTGS().OpenPlugin()`. -/
  | OpenPlugin
  /-- The call `batch_cb(snd_buffer, frames)`: `data` is the `2 * frames` samples the
  host reads from the start of `snd_buffer`. -/
  | batch_cb (data : List Int) (frames : Int)
  deriving DecidableEq, Repr

/-! ## Global state -/

/-- The constant `samples_max`, the capacity of the audio buffer in stereo frames. -/
def samples_max : Int := 0x800

/-- The statics of `main.cpp` and the configuration fields it writes. -/
structure State where
  /-- The static `std::vector<const char*> disk_images`. -/
  disk_images : List (Option String)
  /-- The static `int image_index`. -/
  image_index : Int
  /-- The static `bool eject_state`. -/
  eject_state : Bool
  /-- The static `int write_pos`. -/
  write_pos : Int
  /-- The static `s16 snd_buffer[samples_max << 1]`. -/
  snd_buffer : List Int
  /-- The field `SetGSConfig().VsyncQueueSize`. -/
  VsyncQueueSize : Nat
  /-- The field `g_Conf->CdvdSource`. -/
  CdvdSource : CDVD_SourceType
  /-- The field `g_Conf->CurrentIso`, a string object. -/
  CurrentIso : String
  /-- The collaborator calls made so far, oldest first. -/
  trace : List Effect
  deriving DecidableEq, Repr

/-- The state at program start: `disk_images` is empty, `image_index = 0`, and
the other statics are zero-initialised. -/
def State.init : State where
  disk_images := []
  image_index := 0
  eject_state := false
  write_pos := 0
  snd_buffer := List.replicate 0x1000 0
  VsyncQueueSize := 2
  CdvdSource := CDVD_SourceType.NoDisc
  CurrentIso := ""
  trace := []

/-- Appends one collaborator call to the trace. -/
def State.emit (s : State) (e : Effect) : State :=
  { s with trace := s.trace ++ [e] }

/-- The assignment `SetGSConfig().VsyncQueueSize = n`, recorded in the trace. -/
def State.setVsyncQueueSize (s : State) (n : Nat) : State :=
  { s with VsyncQueueSize := n, trace := s.trace ++ [Effect.SetVsyncQueueSize n] }

/-! ## Disk control -/

/-- The function `set_eject_state(ejected)`.  The read `disk_images[image_index]`
is guarded by the range test before it, so it is always inside the list; the
entry read may be `nullptr` (a slot that `add_image_index` appended), and the
assignment to the string `g_Conf->CurrentIso` then stores the empty string. -/
def set_eject_state (s : State) (ejected : Bool) : Bool × State :=
  if s.eject_state = ejected then
    (false, s)
  else
    let s := { s with eject_state := ejected }
    let s := s.setVsyncQueueSize 100
    let s := s.emit Effect.SignalVsync
    let s := s.emit Effect.Pause
    let s := s.setVsyncQueueSize 2
    let s :=
      if ejected then
        s.emit Effect.cdvdCtrlTrayOpen
      else
        let s :=
          if s.image_index < 0 ∨ s.image_index ≥ int_of_unsigned s.disk_images.length then
            { s with CdvdSource := CDVD_SourceType.NoDisc }
          else
            let s := { s with
              CurrentIso := string_of_cstr (s.disk_images.getD s.image_index.toNat none) }
            let s := { s with CdvdSource := CDVD_SourceType.Iso }
            s.emit (Effect.CDVDsys_SetFile CDVD_SourceType.Iso s.CurrentIso)
        s.emit Effect.cdvdCtrlTrayClose
    let s := s.emit Effect.Resume
    (true, s)

/-- The function `get_eject_state()`. -/
def get_eject_state (s : State) : Bool :=
  s.eject_state

/-- The function `get_image_index()`: `image_index` converted to `unsigned`. -/
def get_image_index (s : State) : Nat :=
  (s.image_index % 2 ^ 32).toNat

/-- The function `set_image_index(index)`. -/
def set_image_index (s : State) (index : Nat) : Bool × State :=
  let s := if s.eject_state then { s with image_index := int_of_unsigned index } else s
  (s.eject_state, s)

/-- The function `get_num_images()`. -/
def get_num_images (s : State) : Nat :=
  s.disk_images.length

/-- The function `replace_image_index(index, info)`; `path` is `info->path`. -/
def replace_image_index (s : State) (index : Nat) (path : Option String) : Bool × State :=
  if index ≥ s.disk_images.length then
    (false, s)
  else
    match path with
    | none =>
      let s := { s with disk_images := s.disk_images.eraseIdx index }
      if s.disk_images.length = 0 then
        (true, { s with image_index := -1 })
      else if s.image_index > int_of_unsigned index then
        (true, { s with image_index := s.image_index - 1 })
      else
        (true, s)
    | some p =>
      (true, { s with disk_images := s.disk_images.set index (some p) })

/-- The function `add_image_index()`. -/
def add_image_index (s : State) : Bool × State :=
  (true, { s with disk_images := s.disk_images ++ [none] })

/-- The function `set_initial_image(index, path)`. -/
def set_initial_image (s : State) (index : Nat) (_path : Option String) : Bool × State :=
  let index := if index ≥ s.disk_images.length then 0 else index
  (true, { s with image_index := int_of_unsigned index })

/-- The library function `strncpy(dest, src, len)`: the characters of `src` up
to its terminator, padded with NUL to exactly `len` characters, written over
the start of `dest` (a buffer of at least `len` characters). -/
def strncpy (dest : List Char) (src : String) (len : Nat) : List Char :=
  let chars := src.toList.takeWhile (fun c => c ≠ Char.ofNat 0)
  (chars ++ List.replicate len (Char.ofNat 0)).take len ++ dest.drop len

/-- The function `get_image_path(index, path, len)`; the second component is the caller's
buffer `path` after the call. -/
def get_image_path (s : State) (index : Nat) (path : List Char) (len : Nat) :
    Bool × List Char :=
  if index ≥ s.disk_images.length then
    (false, path)
  else
    match s.disk_images.getD index none with
    | none => (false, path)
    | some p => (true, strncpy path p len)

/-- The function `get_image_label(index, label, len)`; the second component is the caller's
buffer `label` after the call. -/
def get_image_label (s : State) (index : Nat) (label : List Char) (len : Nat) :
    Bool × List Char :=
  if index ≥ s.disk_images.length then
    (false, label)
  else
    match s.disk_images.getD index none with
    | none => (false, label)
    | some p => (true, strncpy label p len)

/-- A call of the disk-control surface that edits the image list. -/
inductive DiskOp where
  /-- A call `replace_image_index(index, info)` with `info->path = path` -/
  | replace (index : Nat) (path : Option String)
  /-- A call `add_image_index()`. -/
  | add
  deriving DecidableEq, Repr

/-- The state after one list-editing call. -/
def DiskOp.apply (s : State) : DiskOp → State
  | DiskOp.replace index path => (replace_image_index s index path).2
  | DiskOp.add => (add_image_index s).2

/-- The state after a sequence of list-editing calls, first call first. -/
def run_disk_ops (s : State) (ops : List DiskOp) : State :=
  ops.foldl DiskOp.apply s

/-- The index invariant of the specification: `image_index` is "none" or a
valid offset into `disk_images`. -/
def index_valid (s : State) : Prop :=
  s.image_index = -1 ∨ (0 ≤ s.image_index ∧ s.image_index < s.disk_images.length)

instance (s : State) : Decidable (index_valid s) := by
  unfold index_valid; infer_instance

/-- Test state: three images `A`, `B`, `C`, the second one selected. -/
def state_ABC : State :=
  { State.init with disk_images := [some "A", some "B", some "C"], image_index := 1 }

/-- Test state: two images `A`, `B`, the second (last) one selected. -/
def state_AB : State :=
  { State.init with disk_images := [some "A", some "B"], image_index := 1 }

/-- Test state reached through the disk-control calls alone: one empty slot
appended, the tray opened, the slot selected. -/
def state_empty_slot : State :=
  (set_image_index (set_eject_state (add_image_index State.init).2 true).2 0).2

/-! ## Audio hand-off -/

/-- The two `s32` channels of `StereoOut32` (declared in `SPU2/Global.h`) that
`SndBuffer::Write` reads. -/
structure StereoOut32 where
  /-- The field `s32 Left`. -/
  Left : Int
  /-- The field `s32 Right`. -/
  Right : Int
  deriving DecidableEq, Repr

/-- The function `SndBuffer::Write(Sample)`.  `>>` on an `s32` is the arithmetic
shift, and the store into an `s16` element keeps the low 16 bits.  The lock
`snd_mutex` makes the body atomic, so it is one step of the state. -/
def SndBuffer.Write (s : State) (Sample : StereoOut32) : State :=
  if s.write_pos < (samples_max <<< 1) then
    let s := { s with
      snd_buffer := s.snd_buffer.set s.write_pos.toNat (to_s16 (Sample.Left >>> 12)),
      write_pos := s.write_pos + 1 }
    let s := { s with
      snd_buffer := s.snd_buffer.set s.write_pos.toNat (to_s16 (Sample.Right >>> 12)),
      write_pos := s.write_pos + 1 }
    s
  else
    s

/-- The function `SndBuffer::Init()`. -/
def SndBuffer.Init (s : State) : State :=
  { s with write_pos := 0 }

/-- The audio block that ends `retro_run` (the `if (write_pos > (0x200 << 1))`
statement): the host sink is handed the buffer with a frame count of
`write_pos >> 1`, of which it reads `2 * (write_pos >> 1)` samples. -/
def retro_run_drain (s : State) : State :=
  if s.write_pos > (0x200 <<< 1) then
    let s := s.emit
      (Effect.batch_cb (s.snd_buffer.take (2 * (s.write_pos >>> 1).toNat)) (s.write_pos >>> 1))
    { s with write_pos := 0 }
  else
    s

/-- The state after a sequence of `SndBuffer::Write` calls, first call first. -/
def write_all (s : State) (samples : List StereoOut32) : State :=
  samples.foldl SndBuffer.Write s

/-- The interleaved `s16` pair that one frame occupies in `snd_buffer`. -/
def frame_samples (f : StereoOut32) : List Int :=
  [to_s16 (f.Left >>> 12), to_s16 (f.Right >>> 12)]

/-- The interleaved `s16` samples of a sequence of frames. -/
def interleave : List StereoOut32 → List Int
  | [] => []
  | f :: fs => frame_samples f ++ interleave fs

/-! ## Save states -/

/-- The byte sizes that `retro_serialize_size` adds up: the members of
`Ps2MemSize` and the `VU*_PROGSIZE` / `VU*_MEMSIZE` / `_8mb` constants, all
declared outside `main.cpp`. -/
structure MemSizes where
  /-- The constant `Ps2MemSize::MainRam`. -/
  MainRam : Nat
  /-- The constant `Ps2MemSize::Scratch`. -/
  Scratch : Nat
  /-- The constant `Ps2MemSize::Hardware`. -/
  Hardware : Nat
  /-- The constant `Ps2MemSize::IopRam`. -/
  IopRam : Nat
  /-- The constant `Ps2MemSize::IopHardware`. -/
  IopHardware : Nat
  /-- The constant `VU0_PROGSIZE`. -/
  VU0_PROGSIZE : Nat
  /-- The constant `VU0_MEMSIZE`. -/
  VU0_MEMSIZE : Nat
  /-- The constant `VU1_PROGSIZE`. -/
  VU1_PROGSIZE : Nat
  /-- The constant `VU1_MEMSIZE`. -/
  VU1_MEMSIZE : Nat
  /-- The constant `_8mb`. -/
  _8mb : Nat
  deriving DecidableEq, Repr

/-- The function `retro_serialize_size()`. -/
def retro_serialize_size (c : MemSizes) : Nat :=
  c.MainRam + c.Scratch + c.Hardware +
    c.IopRam + c.IopHardware +
    c.VU0_PROGSIZE + c.VU0_MEMSIZE + c.VU1_PROGSIZE + c.VU1_MEMSIZE +
    c._8mb

/-- The save-state collaborators of `main.cpp`, which are defined outside it,
over a type `M` of emulated-machine contents (the memory regions and the SPU2
state). -/
structure SaveStateOps (M : Type) where
  /-- The bytes that `memSavingState::FreezeAll` leaves in its buffer. -/
  FreezeAll_save : M → List Nat
  /-- The bytes that `SPU2Savestate::FreezeIt` stores into its data block. -/
  FreezeIt : M → List Nat
  /-- The machine after `memLoadingState::FreezeAll` has read the buffer, and
  the offset of `GetBlockPtr()` in the buffer afterwards. -/
  FreezeAll_load : List Nat → M → M × Nat
  /-- The machine after `SPU2Savestate::ThawIt` has read its data block. -/
  ThawIt : List Nat → M → M

/-- The function `retro_unserialize(data, size)`.  `data` is the host's buffer,
of which `size` bytes are copied into the `VmStateBuffer`; the data block
handed to `ThawIt` starts at `loadme.GetBlockPtr()`. -/
def retro_unserialize {M : Type} (ops : SaveStateOps M) (s : State) (m : M)
    (data : List Nat) (size : Nat) : Bool × State × M :=
  let s := s.setVsyncQueueSize 100
  let s := s.emit Effect.SignalVsync
  let s := s.emit Effect.Pause
  let s := s.setVsyncQueueSize 2
  let s := s.emit Effect.Flush
  let buffer := data.take size
  let loaded := ops.FreezeAll_load buffer m
  let s := s.emit Effect.FreezeAll_load
  let m := ops.ThawIt (buffer.drop loaded.2) loaded.1
  let s := s.emit Effect.ThawIt
  let s := s.emit Effect.Resume
  (true, s, m)

/-- Example sizes for the save-state regions, those of the PS2 memory map:
32 MB main RAM, 16 KB scratchpad, 64 KB hardware registers, 2 MB IOP RAM, 64 KB
IOP hardware registers, 4 KB + 4 KB for VU0, 16 KB + 16 KB for VU1, and the
8 MB block. -/
def example_sizes : MemSizes where
  MainRam := 0x2000000
  Scratch := 0x4000
  Hardware := 0x10000
  IopRam := 0x200000
  IopHardware := 0x10000
  VU0_PROGSIZE := 0x1000
  VU0_MEMSIZE := 0x1000
  VU1_PROGSIZE := 0x4000
  VU1_MEMSIZE := 0x4000
  _8mb := 0x800000

/-- Example collaborators over a machine that is one list of bytes: saving
yields the bytes, loading takes the bytes of the buffer as the new machine, and
the SPU2 block is empty. -/
def example_ops : SaveStateOps (List Nat) where
  FreezeAll_save := fun m => m
  FreezeIt := fun _ => []
  FreezeAll_load := fun buffer _ => (buffer, buffer.length)
  ThawIt := fun _ m => m

/-- Example input of `SndBuffer::Write`: `0x800` equal frames followed by one
more, different frame. -/
def example_frames : List StereoOut32 :=
  List.replicate 0x800 ⟨4096, -4096⟩ ++ [⟨8192, 8192⟩]

/-! ## Save states: capturing -/

/-- The library function `memcpy(dest + off, src, n)` with `n` the length of
`src`: the bytes of `src` replace those of `dest` from offset `off` on.  `dest`
is the memory from the destination pointer on; the result is longer than
`dest` when the copy runs past its end. -/
def memcpy (dest : List Nat) (off : Nat) (src : List Nat) : List Nat :=
  dest.take off ++ src ++ dest.drop (off + src.length)

/-- The function `retro_serialize(data, size)`.  `data` is the memory at the
host's pointer; the third component is that memory after the call.  `size` is
not read: the frozen bytes are copied to the start of `data` and the SPU2 data
block is stored right behind them. -/
def retro_serialize {M : Type} (ops : SaveStateOps M) (s : State) (m : M)
    (data : List Nat) (_size : Nat) : Bool × State × List Nat :=
  let s := s.setVsyncQueueSize 100
  let s := s.emit Effect.SignalVsync
  let s := s.emit Effect.Pause
  let s := s.setVsyncQueueSize 2
  let s := s.emit Effect.Flush
  let buffer := ops.FreezeAll_save m
  let s := s.emit Effect.FreezeAll_save
  let data := memcpy data 0 buffer
  let data := memcpy data buffer.length (ops.FreezeIt m)
  let s := s.emit Effect.FreezeIt
  let s := s.emit Effect.Resume
  (true, s, data)

/-- The summands of `retro_serialize_size`, in order.  In the specification
they are the byte sizes of the fixed-size regions of the RegionSequence: main
RAM, scratch memory, hardware registers, IOP RAM, IOP hardware registers, VU0
program and data memory, VU1 program and data memory, the reserved block. -/
def region_sizes (c : MemSizes) : List Nat :=
  [c.MainRam, c.Scratch, c.Hardware, c.IopRam, c.IopHardware,
    c.VU0_PROGSIZE, c.VU0_MEMSIZE, c.VU1_PROGSIZE, c.VU1_MEMSIZE, c._8mb]

/-- The byte sizes of the whole RegionSequence of the specification at capture
time: the fixed-size regions, then the audio-subsystem state block that
`retro_serialize` stores last, with the size `SPU2Savestate::FreezeIt` gives
it. -/
def snapshot_region_sizes {M : Type} (ops : SaveStateOps M) (c : MemSizes) (m : M) :
    List Nat :=
  region_sizes c ++ [(ops.FreezeIt m).length]

/-- Modelled from the spec: the emulated-machine contents that `FreezeAll`,
`FreezeIt` and `ThawIt` (all defined outside `main.cpp`) save and restore: the
raw contents of the fixed-size regions, in RegionSequence order, and the
audio-subsystem state block. -/
structure Machine where
  /-- The contents of the fixed-size regions, in RegionSequence order. -/
  regions : List (List Nat)
  /-- The audio-subsystem state block. -/
  spu2 : List Nat
  deriving DecidableEq, Repr

/-- Modelled from the spec: reading the regions back from a buffer, "each
region in the same fixed order", with no separator or padding; a region takes
as many bytes as it holds. -/
def read_regions : List (List Nat) → List Nat → List (List Nat)
  | [], _ => []
  | r :: rs, buffer =>
    (buffer.take r.length ++ r.drop buffer.length) :: read_regions rs (buffer.drop r.length)

/-- Modelled from the spec: the save-state collaborators, which are defined
outside `main.cpp`.  Capture "writes each region's raw contents in
RegionSequence order, with no separators, headers, or padding"; the audio
block is "an opaque blob of a size it declares"; restore "reads each region
back in the same fixed order, then hands the remaining trailing bytes to the
audio-subsystem collaborator". -/
def spec_ops : SaveStateOps Machine where
  FreezeAll_save := fun m => m.regions.flatten
  FreezeIt := fun m => m.spu2
  FreezeAll_load := fun buffer m =>
    ({ m with regions := read_regions m.regions buffer }, (m.regions.map List.length).sum)
  ThawIt := fun block m =>
    { m with spu2 := block.take m.spu2.length ++ m.spu2.drop block.length }

/-- A machine whose regions have the sizes `region_sizes c` and hold the byte
`b` everywhere, with the audio block `spu2`. -/
def filled_machine (c : MemSizes) (b : Nat) (spu2 : List Nat) : Machine where
  regions := (region_sizes c).map (fun n => List.replicate n b)
  spu2 := spu2

/-- The effects of the quiescence preamble, in order: enlarge the GS queue
bound, signal vsync, pause the core thread, restore the bound. -/
def quiesce_preamble : List Effect :=
  [Effect.SetVsyncQueueSize 100, Effect.SignalVsync, Effect.Pause, Effect.SetVsyncQueueSize 2]

/-- Whether an effect is a step of the quiescence protocol itself (a change of
the queue bound, the vsync signal, a pause or a resume) rather than part of a
guarded state operation. -/
def Effect.is_protocol_step : Effect → Bool
  | Effect.SetVsyncQueueSize _ => true
  | Effect.SignalVsync => true
  | Effect.Pause => true
  | Effect.Resume => true
  | _ => false

/-! ## Video and reset -/

/-- Conversion of an `int` to a 32-bit `unsigned`: the value modulo `2^32`. -/
def unsigned_of_int (x : Int) : Nat :=
  (x % 2 ^ 32).toNat

/-- The fields of `retro_system_av_info` that are integers or hold an integral
value: the four `unsigned` geometry fields and `timing.sample_rate`.  The
`float` aspect ratio and the frame rate are outside the model. -/
structure retro_system_av_info where
  /-- The field `geometry.base_width`. -/
  base_width : Nat
  /-- The field `geometry.base_height`. -/
  base_height : Nat
  /-- The field `geometry.max_width`. -/
  max_width : Nat
  /-- The field `geometry.max_height`. -/
  max_height : Nat
  /-- The field `timing.sample_rate`. -/
  sample_rate : Nat
  deriving DecidableEq, Repr

/-- The function `retro_get_system_av_info(info)`, from the values of
`Options::renderer` and `Options::upscale_multiplier` (an `int` option
declared outside `main.cpp`). -/
def retro_get_system_av_info (renderer : String) (upscale_multiplier : Int) :
    retro_system_av_info :=
  let base : Nat × Nat :=
    if renderer = "Software" ∨ renderer = "Null" then
      (640, 448)
    else
      (unsigned_of_int (640 * upscale_multiplier), unsigned_of_int (448 * upscale_multiplier))
  { base_width := base.1
    base_height := base.2
    max_width := base.1
    max_height := base.2
    sample_rate := 48000 }

/-- The function `retro_reset()`. -/
def retro_reset (s : State) : State :=
  let s := s.emit Effect.ClosePlugin
  let s := s.emit Effect.ResetQuick
  let s := s.emit Effect.OpenPlugin
  let s := s.emit Effect.Resume
  let s := { s with eject_state := false }
  { s with write_pos := 0 }

/-- The function `retro_load_game(game)` as far as the state of this model
goes.  `bios_empty` is `Options::bios.empty()`, `game` is `game->path` when
`game` is not null, `fopen_ok` tells whether the file opens, `magic` is its
first word and `hw_render` the answer of the hardware-render negotiation that
ends the function.  Its calls into the BIOS, executor and input collaborators
are not recorded in the trace. -/
def retro_load_game (s : State) (bios_empty : Bool) (game : Option String) (fopen_ok : Bool)
    (magic : Nat) (hw_render : Bool) : Bool × State :=
  if bios_empty then
    (false, s)
  else
    let s := { s with eject_state := false }
    let s := { s with write_pos := 0 }
    if game.isSome ∧ fopen_ok = false then
      (false, s)
    else
      let magic := if game.isSome then magic else 0
      if magic = 0x464C457F then
        (hw_render, s)
      else
        let s := { s with
          CdvdSource := if game.isSome then CDVD_SourceType.Iso else CDVD_SourceType.NoDisc }
        let s := { s with CurrentIso := game.getD "" }
        (hw_render, s)

/-- A call that touches the audio cursor. -/
inductive AudioOp where
  /-- A call `SndBuffer::Write(Sample)`. -/
  | Write (Sample : StereoOut32)
  /-- The audio block of a `retro_run()` tick. -/
  | drain
  /-- A call `SndBuffer::Init()`. -/
  | Init
  /-- A call `retro_reset()`. -/
  | reset
  /-- A call `retro_load_game(game)`. -/
  | load_game (bios_empty : Bool) (game : Option String) (fopen_ok : Bool) (magic : Nat)
      (hw_render : Bool)
  deriving DecidableEq, Repr

/-- The state after one call that touches the audio cursor. -/
def AudioOp.apply (s : State) : AudioOp → State
  | AudioOp.Write Sample => SndBuffer.Write s Sample
  | AudioOp.drain => retro_run_drain s
  | AudioOp.Init => SndBuffer.Init s
  | AudioOp.reset => retro_reset s
  | AudioOp.load_game bios_empty game fopen_ok magic hw_render =>
    (retro_load_game s bios_empty game fopen_ok magic hw_render).2

/-- The state after a sequence of calls that touch the audio cursor, first call
first. -/
def run_audio_ops (s : State) (ops : List AudioOp) : State :=
  ops.foldl AudioOp.apply s

/-- The cursor invariant: `write_pos` is even and lies between 0 and
`2 * samples_max`, and `snd_buffer` has its `samples_max << 1` elements. -/
def cursor_valid (s : State) : Prop :=
  s.write_pos % 2 = 0 ∧ 0 ≤ s.write_pos ∧ s.write_pos ≤ 2 * samples_max ∧
    (s.snd_buffer.length : Int) = 2 * samples_max

/-- Example frames that stay below the capacity: `0x300` equal frames. -/
def example_frames_short : List StereoOut32 :=
  List.replicate 0x300 ⟨4096, -4096⟩

/-! ## Machine-integer lemmas -/

theorem int_of_unsigned_of_lt {u : Nat} (h : u < 2 ^ 31) : int_of_unsigned u = (u : Int) := by
  unfold int_of_unsigned
  have h1 : u % 2 ^ 32 = u := Nat.mod_eq_of_lt (by omega)
  rw [h1, if_pos h]

theorem samples_max_shift : (samples_max <<< 1 : Int) = 0x1000 := by decide

/-! ## Disk control: the index invariant -/

theorem length_apply_le (s : State) (op : DiskOp) :
    (op.apply s).disk_images.length ≤ s.disk_images.length + 1 := by
  cases op with
  | add => simp [DiskOp.apply, add_image_index]
  | replace index path =>
    have hle := List.length_eraseIdx_le s.disk_images index
    cases path with
    | none =>
      simp only [DiskOp.apply, replace_image_index]
      split_ifs <;> simp <;> omega
    | some p =>
      simp only [DiskOp.apply, replace_image_index]
      split_ifs <;> simp

theorem index_apply (s : State) (op : DiskOp) (hlen : s.disk_images.length < 2 ^ 31)
    (h : s.image_index = -1 ∨ s.image_index = 0) :
    (op.apply s).image_index = -1 ∨ (op.apply s).image_index = 0 := by
  cases op with
  | add => simpa [DiskOp.apply, add_image_index] using h
  | replace index path =>
    cases path with
    | some p =>
      simp only [DiskOp.apply, replace_image_index]
      split_ifs <;> simpa using h
    | none =>
      simp only [DiskOp.apply, replace_image_index]
      by_cases hidx : index ≥ s.disk_images.length
      · simpa [hidx] using h
      · have hcast : int_of_unsigned index = (index : Int) :=
          int_of_unsigned_of_lt (by omega)
        simp only [hidx, if_false, hcast]
        split_ifs with h1 h2
        · simp
        · exfalso; omega
        · simpa using h

theorem index_run (ops : List DiskOp) :
    ∀ s : State, s.disk_images.length + ops.length < 2 ^ 31 →
      (s.image_index = -1 ∨ s.image_index = 0) →
      ((run_disk_ops s ops).image_index = -1 ∨ (run_disk_ops s ops).image_index = 0) := by
  induction ops with
  | nil => intro s _ h; simpa [run_disk_ops] using h
  | cons op ops ih =>
    intro s hlen h
    have hstep := length_apply_le s op
    have hl : (op.apply s).disk_images.length + ops.length < 2 ^ 31 := by
      simp only [List.length_cons] at hlen; omega
    have := ih (op.apply s) hl (index_apply s op (by omega) h)
    simpa [run_disk_ops] using this

/-- C1, as stated, fails: in the initial state (no call made yet) `disk_images`
is empty and `image_index` is `0`, which is neither "none" nor a valid
offset. -/
theorem initial_index_not_valid :
    State.init.disk_images = [] ∧ State.init.image_index = 0 ∧
      ¬ index_valid (run_disk_ops State.init []) := by
  decide

/-- C1, amended: after any sequence of fewer than `2^31` `replace_image_index` /
`add_image_index` calls from a state with an empty list and `image_index = 0`,
`image_index` is "none" or a valid offset, or the list is empty and
`image_index` still has its initial value `0`. -/
theorem index_valid_or_initial (s₀ : State) (ops : List DiskOp)
    (hempty : s₀.disk_images = []) (hzero : s₀.image_index = 0)
    (hlen : ops.length < 2 ^ 31) :
    index_valid (run_disk_ops s₀ ops) ∨
      ((run_disk_ops s₀ ops).disk_images = [] ∧ (run_disk_ops s₀ ops).image_index = 0) := by
  have h := index_run ops s₀ (by simp [hempty]; omega) (Or.inr hzero)
  rcases h with h | h
  · exact Or.inl (Or.inl h)
  · cases hl : (run_disk_ops s₀ ops).disk_images with
    | nil => exact Or.inr ⟨rfl, h⟩
    | cons a l =>
      refine Or.inl (Or.inr ⟨by omega, ?_⟩)
      rw [h, hl]; simp

/-- Witness of `index_valid_or_initial`: add two slots, name them, remove both. -/
theorem index_valid_or_initial_witness :
    State.init.disk_images = [] ∧ State.init.image_index = 0 ∧
      [DiskOp.add, DiskOp.add, DiskOp.replace 1 (some "B"), DiskOp.replace 0 none,
        DiskOp.replace 0 none].length < 2 ^ 31 ∧
      (index_valid (run_disk_ops State.init
          [DiskOp.add, DiskOp.add, DiskOp.replace 1 (some "B"), DiskOp.replace 0 none,
            DiskOp.replace 0 none]) ∨
        ((run_disk_ops State.init
          [DiskOp.add, DiskOp.add, DiskOp.replace 1 (some "B"), DiskOp.replace 0 none,
            DiskOp.replace 0 none]).disk_images = [] ∧
         (run_disk_ops State.init
          [DiskOp.add, DiskOp.add, DiskOp.replace 1 (some "B"), DiskOp.replace 0 none,
            DiskOp.replace 0 none]).image_index = 0)) :=
  ⟨rfl, rfl, by decide, index_valid_or_initial State.init _ rfl rfl (by decide)⟩

/-! ## Disk control: `set_image_index` -/

/-- C2: `set_image_index(i)` returns the eject flag; while ejected it stores `i`
in `image_index` (as the `int` conversion of the `unsigned` argument, which is
`i` itself below `2^31`, and which `get_image_index` reads back as `i`) and
returns true; while inserted it returns false and leaves the whole state,
hence `image_index`, `disk_images` and `eject_state`, unchanged. -/
theorem set_image_index_accepted_iff_ejected (s : State) (i : Nat) :
    (set_image_index s i).1 = s.eject_state ∧
    (s.eject_state = true →
      set_image_index s i = (true, { s with image_index := int_of_unsigned i }) ∧
      (i < 2 ^ 31 → (set_image_index s i).2.image_index = (i : Int)) ∧
      (i < 2 ^ 32 → get_image_index (set_image_index s i).2 = i)) ∧
    (s.eject_state = false → set_image_index s i = (false, s)) := by
  refine ⟨?_, ?_, ?_⟩
  · unfold set_image_index
    cases h : s.eject_state <;> simp [h]
  · intro h
    refine ⟨?_, ?_, ?_⟩
    · simp [set_image_index, h]
    · intro hi
      simp [set_image_index, h, int_of_unsigned_of_lt hi]
    · intro hi
      have hmod : i % 2 ^ 32 = i := Nat.mod_eq_of_lt hi
      simp only [set_image_index, h, if_true, get_image_index, int_of_unsigned, hmod]
      split_ifs with hlt
      · have : ((i : Int) % 2 ^ 32) = (i : Int) := Int.emod_eq_of_lt (by omega) (by omega)
        rw [this]; simp
      · have : (((i : Int) - 2 ^ 32) % 2 ^ 32) = (i : Int) := by omega
        rw [this]; simp
  · intro h
    simp [set_image_index, h]

/-- Witness of `set_image_index_accepted_iff_ejected`: selecting image 2 with the
tray open. -/
theorem set_image_index_accepted_iff_ejected_witness :
    ({ state_ABC with eject_state := true } : State).eject_state = true ∧
      set_image_index { state_ABC with eject_state := true } 2 =
        (true, { state_ABC with eject_state := true, image_index := int_of_unsigned 2 }) ∧
      (set_image_index { state_ABC with eject_state := true } 2).2.image_index = 2 ∧
      get_image_index (set_image_index { state_ABC with eject_state := true } 2).2 = 2 ∧
      state_ABC.eject_state = false ∧
      set_image_index state_ABC 2 = (false, state_ABC) :=
  ⟨rfl,
   ((set_image_index_accepted_iff_ejected { state_ABC with eject_state := true } 2).2.1 rfl).1,
   ((set_image_index_accepted_iff_ejected { state_ABC with eject_state := true } 2).2.1 rfl).2.1
     (by decide),
   ((set_image_index_accepted_iff_ejected { state_ABC with eject_state := true } 2).2.1 rfl).2.2
     (by decide),
   rfl,
   (set_image_index_accepted_iff_ejected state_ABC 2).2.2 rfl⟩

/-! ## Disk control: removing an entry -/

/-- C3, as stated, fails.  With `[A, B, C]` and `B` selected, a later entry
exists, yet removing `B` does not decrease `image_index` (it stays `1`).  With
`[A, B]` and `B` selected, `image_index` is the last offset, yet removing `B`
does not make it `-1` (it stays `1`). -/
theorem remove_current_not_lifecycle_rule :
    (0 ≤ state_ABC.image_index ∧
      state_ABC.image_index + 1 < (state_ABC.disk_images.length : Int) ∧
      (replace_image_index state_ABC state_ABC.image_index.toNat none).2.image_index
        ≠ state_ABC.image_index - 1 ∧
      (replace_image_index state_ABC state_ABC.image_index.toNat none).2.image_index = 1) ∧
    (0 ≤ state_AB.image_index ∧
      state_AB.image_index + 1 = (state_AB.disk_images.length : Int) ∧
      (replace_image_index state_AB state_AB.image_index.toNat none).2.image_index ≠ -1 ∧
      (replace_image_index state_AB state_AB.image_index.toNat none).2.image_index = 1) := by
  decide

/-- C3, amended: removing the currently selected entry deletes it; if that
empties the list `image_index` becomes `-1`; if a later entry existed
`image_index` keeps its value and now refers to that later entry. -/
theorem remove_current_entry (s : State)
    (h0 : 0 ≤ s.image_index) (h1 : s.image_index < (s.disk_images.length : Int))
    (hint : s.image_index < 2 ^ 31) :
    (replace_image_index s s.image_index.toNat none).1 = true ∧
    (replace_image_index s s.image_index.toNat none).2.disk_images
      = s.disk_images.eraseIdx s.image_index.toNat ∧
    (s.disk_images.length = 1 →
      (replace_image_index s s.image_index.toNat none).2.image_index = -1) ∧
    (s.image_index + 1 < (s.disk_images.length : Int) →
      (replace_image_index s s.image_index.toNat none).2.image_index = s.image_index ∧
      (replace_image_index s s.image_index.toNat none).2.disk_images[s.image_index.toNat]?
        = s.disk_images[s.image_index.toNat + 1]?) := by
  have hlt : s.image_index.toNat < s.disk_images.length := by omega
  have hnot : ¬ (s.image_index.toNat ≥ s.disk_images.length) := by omega
  have hcast : int_of_unsigned s.image_index.toNat = s.image_index := by
    rw [int_of_unsigned_of_lt (by omega)]; omega
  have hlen := List.length_eraseIdx_of_lt hlt
  simp only [replace_image_index, hnot, if_false, hcast, gt_iff_lt, lt_self_iff_false]
  refine ⟨?_, ?_, ?_, ?_⟩
  · split_ifs <;> rfl
  · split_ifs <;> rfl
  · intro hone
    have : (s.disk_images.eraseIdx s.image_index.toNat).length = 0 := by omega
    simp [this]
  · intro hlater
    have : ¬ (s.disk_images.eraseIdx s.image_index.toNat).length = 0 := by omega
    simp only [this, if_false, true_and]
    exact List.getElem?_eraseIdx_of_ge _ _ _ (le_refl _)

/-- Witness of `remove_current_entry`: `[A, B, C]` with `B` selected. -/
theorem remove_current_entry_witness :
    0 ≤ state_ABC.image_index ∧ state_ABC.image_index < (state_ABC.disk_images.length : Int) ∧
      state_ABC.image_index < 2 ^ 31 ∧
      (replace_image_index state_ABC state_ABC.image_index.toNat none).2.image_index
        = state_ABC.image_index ∧
      (replace_image_index state_ABC state_ABC.image_index.toNat none).2.disk_images[
          state_ABC.image_index.toNat]?
        = state_ABC.disk_images[state_ABC.image_index.toNat + 1]? :=
  ⟨by decide, by decide, by decide,
   (remove_current_entry state_ABC (by decide) (by decide) (by decide)).2.2.2 (by decide)⟩

/-- C4: removing an in-range entry `i` from a list of at least two entries
deletes exactly that entry (the entries before `i` keep their offsets, the
entries after `i` move down by one) and decrements `image_index` when `i` is
strictly before it; otherwise (`i` at or after `image_index`) `image_index`
keeps its value. -/
theorem remove_entry_shifts_index (s : State) (i : Nat)
    (hi : i < s.disk_images.length) (hne : 2 ≤ s.disk_images.length) (h31 : i < 2 ^ 31) :
    (replace_image_index s i none).1 = true ∧
    (replace_image_index s i none).2.disk_images
      = s.disk_images.take i ++ s.disk_images.drop (i + 1) ∧
    (replace_image_index s i none).2.disk_images.length = s.disk_images.length - 1 ∧
    (∀ j, j < i → (replace_image_index s i none).2.disk_images[j]? = s.disk_images[j]?) ∧
    (∀ j, i ≤ j → (replace_image_index s i none).2.disk_images[j]? = s.disk_images[j + 1]?) ∧
    ((i : Int) < s.image_index →
      (replace_image_index s i none).2.image_index = s.image_index - 1) ∧
    (s.image_index ≤ (i : Int) →
      (replace_image_index s i none).2.image_index = s.image_index) ∧
    (replace_image_index s i none).2.eject_state = s.eject_state := by
  have hnot : ¬ (i ≥ s.disk_images.length) := by omega
  have hcast : int_of_unsigned i = (i : Int) := int_of_unsigned_of_lt h31
  have hlen := List.length_eraseIdx_of_lt hi
  have hnz : ¬ (s.disk_images.eraseIdx i).length = 0 := by omega
  simp only [replace_image_index, hnot, if_false, hcast, hnz, gt_iff_lt]
  refine ⟨?_, ?_, ?_, ?_, ?_, ?_, ?_, ?_⟩
  · split_ifs <;> rfl
  · split_ifs <;> exact List.eraseIdx_eq_take_drop_succ _ _
  · split_ifs <;> exact hlen
  · intro j hj
    split_ifs <;> exact List.getElem?_eraseIdx_of_lt _ _ _ hj
  · intro j hj
    split_ifs <;> exact List.getElem?_eraseIdx_of_ge _ _ _ hj
  · intro h
    simp [h]
  · intro h
    have : ¬ ((i : Int) < s.image_index) := by omega
    simp [this]
  · split_ifs <;> rfl

/-- Witness of `remove_entry_shifts_index`, the scenario of the specification:
entries `[A, B, C]` with `image_index = 1`; removing index 1 gives `[A, C]` with
`image_index = 1`. -/
theorem remove_entry_shifts_index_witness :
    1 < state_ABC.disk_images.length ∧ 2 ≤ state_ABC.disk_images.length ∧
      state_ABC.disk_images = [some "A", some "B", some "C"] ∧ state_ABC.image_index = 1 ∧
      (replace_image_index state_ABC 1 none).2.disk_images = [some "A", some "C"] ∧
      (replace_image_index state_ABC 1 none).2.image_index = 1 :=
  ⟨by decide, by decide, rfl, rfl,
   (remove_entry_shifts_index state_ABC 1 (by decide) (by decide) (by decide)).2.1,
   (remove_entry_shifts_index state_ABC 1 (by decide) (by decide) (by decide)).2.2.2.2.2.2.1
     (by decide)⟩

/-! ## Disk control: `set_eject_state` -/

theorem set_eject_state_flag (s : State) (b : Bool) :
    (set_eject_state s b).2.eject_state = b := by
  unfold set_eject_state
  by_cases h : s.eject_state = b
  · simp [h]
  · simp only [h, if_false]
    cases b <;> simp only [State.emit, State.setVsyncQueueSize] <;> split_ifs <;> rfl

/-- C5: `set_eject_state(b)` in a state whose eject flag already is `b` returns
false and returns the state as it was, trace of collaborator calls and queue
bound included; in particular a second `set_eject_state(true)` in a row returns
false and changes nothing. -/
theorem set_eject_state_same_noop (s : State) (b : Bool) :
    (s.eject_state = b → set_eject_state s b = (false, s)) ∧
    set_eject_state (set_eject_state s true).2 true = (false, (set_eject_state s true).2) ∧
    (set_eject_state (set_eject_state s true).2 true).2.trace
      = (set_eject_state s true).2.trace := by
  have key : ∀ (t : State) (c : Bool), t.eject_state = c → set_eject_state t c = (false, t) := by
    intro t c h
    simp [set_eject_state, h]
  refine ⟨key s b, key _ true (set_eject_state_flag s true), ?_⟩
  rw [key _ true (set_eject_state_flag s true)]

/-- Witness of `set_eject_state_same_noop`: inserting while inserted. -/
theorem set_eject_state_same_noop_witness :
    state_ABC.eject_state = false ∧ set_eject_state state_ABC false = (false, state_ABC) :=
  ⟨rfl, (set_eject_state_same_noop state_ABC false).1 rfl⟩

/-- C6: `set_eject_state(false)` in an ejected state returns true, clears the
eject flag and closes the tray after deciding the medium from `image_index`:
out of range gives `NoDisc` with no image file set, in range gives `Iso` with
`CurrentIso` assigned from the entry `disk_images[image_index]` (the path the
entry holds; the empty string when the entry is a null slot), which is also
the file handed to the CDVD system.  `set_eject_state(true)` in an inserted
state opens the tray and mounts nothing. -/
theorem set_eject_state_mounts_by_index (s : State) (hsz : s.disk_images.length < 2 ^ 31) :
    (s.eject_state = true →
      (set_eject_state s false).1 = true ∧
      (set_eject_state s false).2.eject_state = false ∧
      ((s.image_index < 0 ∨ s.image_index ≥ (s.disk_images.length : Int)) →
        (set_eject_state s false).2.CdvdSource = CDVD_SourceType.NoDisc ∧
        (set_eject_state s false).2.CurrentIso = s.CurrentIso ∧
        (set_eject_state s false).2.trace = s.trace ++
          [Effect.SetVsyncQueueSize 100, Effect.SignalVsync, Effect.Pause,
            Effect.SetVsyncQueueSize 2, Effect.cdvdCtrlTrayClose, Effect.Resume]) ∧
      ((0 ≤ s.image_index ∧ s.image_index < (s.disk_images.length : Int)) →
        (set_eject_state s false).2.CdvdSource = CDVD_SourceType.Iso ∧
        (s.disk_images[s.image_index.toNat]?).map string_of_cstr
          = some (set_eject_state s false).2.CurrentIso ∧
        (∀ p, s.disk_images[s.image_index.toNat]? = some (some p) →
          (set_eject_state s false).2.CurrentIso = p) ∧
        (s.disk_images[s.image_index.toNat]? = some none →
          (set_eject_state s false).2.CurrentIso = "") ∧
        (set_eject_state s false).2.trace = s.trace ++
          [Effect.SetVsyncQueueSize 100, Effect.SignalVsync, Effect.Pause,
            Effect.SetVsyncQueueSize 2,
            Effect.CDVDsys_SetFile CDVD_SourceType.Iso (set_eject_state s false).2.CurrentIso,
            Effect.cdvdCtrlTrayClose, Effect.Resume])) ∧
    (s.eject_state = false →
      (set_eject_state s true).1 = true ∧
      (set_eject_state s true).2.eject_state = true ∧
      (set_eject_state s true).2.CdvdSource = s.CdvdSource ∧
      (set_eject_state s true).2.CurrentIso = s.CurrentIso ∧
      (set_eject_state s true).2.trace = s.trace ++
        [Effect.SetVsyncQueueSize 100, Effect.SignalVsync, Effect.Pause,
          Effect.SetVsyncQueueSize 2, Effect.cdvdCtrlTrayOpen, Effect.Resume]) := by
  have hcast : int_of_unsigned s.disk_images.length = (s.disk_images.length : Int) :=
    int_of_unsigned_of_lt hsz
  refine ⟨?_, ?_⟩
  · intro hej
    refine ⟨?_, set_eject_state_flag s false, ?_, ?_⟩
    · simp [set_eject_state, hej]
    · intro hout
      simp [set_eject_state, hej, hcast, hout, State.emit, State.setVsyncQueueSize]
    · intro hin
      have hnot : ¬ (s.image_index < 0 ∨ s.image_index ≥ (s.disk_images.length : Int)) := by
        omega
      have hlt : s.image_index.toNat < s.disk_images.length := by omega
      have hget : s.disk_images[s.image_index.toNat]?
          = some s.disk_images[s.image_index.toNat] := List.getElem?_eq_getElem hlt
      have hiso : (set_eject_state s false).2.CurrentIso
          = string_of_cstr s.disk_images[s.image_index.toNat] := by
        simp [set_eject_state, hej, hcast, hnot, State.emit, State.setVsyncQueueSize, hget]
      refine ⟨?_, ?_, ?_, ?_, ?_⟩
      · simp [set_eject_state, hej, hcast, hnot, State.emit, State.setVsyncQueueSize]
      · rw [hiso, hget]; rfl
      · intro p hp
        rw [hget] at hp
        rw [hiso, Option.some.inj hp]; rfl
      · intro hn
        rw [hget] at hn
        rw [hiso, Option.some.inj hn]; rfl
      · rw [hiso]
        simp [set_eject_state, hej, hcast, hnot, State.emit, State.setVsyncQueueSize, hget]
  · intro hej
    simp [set_eject_state, hej, State.emit, State.setVsyncQueueSize]

/-- Witness of `set_eject_state_mounts_by_index`: inserting with `B` selected
mounts `B`; inserting with a null slot selected mounts the empty path. -/
theorem set_eject_state_mounts_by_index_witness :
    state_ABC.disk_images.length < 2 ^ 31 ∧
      ({ state_ABC with eject_state := true } : State).eject_state = true ∧
      (set_eject_state { state_ABC with eject_state := true } false).1 = true ∧
      (set_eject_state { state_ABC with eject_state := true } false).2.CdvdSource
        = CDVD_SourceType.Iso ∧
      (set_eject_state { state_ABC with eject_state := true } false).2.CurrentIso = "B" ∧
      state_empty_slot.disk_images = [none] ∧ state_empty_slot.image_index = 0 ∧
      state_empty_slot.eject_state = true ∧
      (set_eject_state state_empty_slot false).2.CdvdSource = CDVD_SourceType.Iso ∧
      (set_eject_state state_empty_slot false).2.CurrentIso = "" := by
  have h := (set_eject_state_mounts_by_index { state_ABC with eject_state := true }
    (by decide)).1 rfl
  have hin := h.2.2.2 ⟨by decide, by decide⟩
  have h' := (set_eject_state_mounts_by_index state_empty_slot (by decide)).1 (by decide)
  have hin' := h'.2.2.2 ⟨by decide, by decide⟩
  exact ⟨by decide, rfl, h.1, hin.1, hin.2.2.1 "B" rfl, by decide, by decide, by decide,
    hin'.1, hin'.2.2.2.1 (by decide)⟩

/-! ## Disk control: path and label queries -/

theorem strncpy_length (dest : List Char) (src : String) (len : Nat)
    (h : len ≤ dest.length) : (strncpy dest src len).length = dest.length := by
  simp only [strncpy, List.length_append, List.length_take, List.length_replicate,
    List.length_drop]
  omega

theorem strncpy_drop (dest : List Char) (src : String) (len : Nat) :
    (strncpy dest src len).drop len = dest.drop len := by
  have hl : ((src.toList.takeWhile (fun c => c ≠ Char.ofNat 0)
      ++ List.replicate len (Char.ofNat 0)).take len).length = len := by
    simp only [List.length_take, List.length_append, List.length_replicate]
    omega
  unfold strncpy
  rw [List.drop_append_eq_append_drop, hl]
  simp [List.drop_eq_nil_of_le (Nat.le_of_eq hl)]

/-- C7: `get_image_path` and `get_image_label` agree on every input; they fail
(false, buffer untouched) exactly when the index is out of range or the entry
is null; otherwise they return true and the buffer holds the `strncpy` of the
stored path, which writes no byte beyond the caller's length. -/
theorem get_image_path_label (s : State) (i : Nat) (buf : List Char) (len : Nat) :
    get_image_label s i buf len = get_image_path s i buf len ∧
    ((get_image_path s i buf len).1 = false ↔
      (i ≥ s.disk_images.length ∨ s.disk_images[i]? = some none)) ∧
    ((get_image_path s i buf len).1 = false → (get_image_path s i buf len).2 = buf) ∧
    (∀ p, s.disk_images[i]? = some (some p) →
      get_image_path s i buf len = (true, strncpy buf p len) ∧
      (get_image_path s i buf len).2.drop len = buf.drop len ∧
      (len ≤ buf.length → (get_image_path s i buf len).2.length = buf.length)) := by
  refine ⟨rfl, ?_, ?_, ?_⟩
  · by_cases h : i ≥ s.disk_images.length
    · simp [get_image_path, h]
    · have hlt : i < s.disk_images.length := by omega
      have hget : s.disk_images[i]? = some s.disk_images[i] := List.getElem?_eq_getElem hlt
      simp only [get_image_path, h, if_false, List.getD_eq_getElem?_getD, hget,
        Option.getD_some, false_or]
      cases he : s.disk_images[i] <;> simp
  · by_cases h : i ≥ s.disk_images.length
    · simp [get_image_path, h]
    · have hlt : i < s.disk_images.length := by omega
      have hget : s.disk_images[i]? = some s.disk_images[i] := List.getElem?_eq_getElem hlt
      simp only [get_image_path, h, if_false, List.getD_eq_getElem?_getD, hget,
        Option.getD_some]
      cases he : s.disk_images[i] <;> simp
  · intro p hp
    have hlt : i < s.disk_images.length := by
      by_contra hge
      rw [List.getElem?_eq_none (by omega)] at hp
      exact Option.noConfusion hp
    have hnot : ¬ (i ≥ s.disk_images.length) := by omega
    have hpath : get_image_path s i buf len = (true, strncpy buf p len) := by
      simp [get_image_path, hnot, hp]
    refine ⟨hpath, ?_, ?_⟩
    · rw [hpath]; exact strncpy_drop buf p len
    · intro hlen
      rw [hpath]; exact strncpy_length buf p len hlen

/-- Witness of `get_image_path_label`: the path of entry 1 of `[A, B, C]`
copied into an 4-byte buffer. -/
theorem get_image_path_label_witness :
    state_ABC.disk_images[1]? = some (some "B") ∧
      get_image_path state_ABC 1 ['x', 'x', 'x', 'x'] 3
        = (true, strncpy ['x', 'x', 'x', 'x'] "B" 3) ∧
      strncpy ['x', 'x', 'x', 'x'] "B" 3 = ['B', Char.ofNat 0, Char.ofNat 0, 'x'] :=
  ⟨rfl, ((get_image_path_label state_ABC 1 ['x', 'x', 'x', 'x'] 3).2.2.2 "B" rfl).1, by decide⟩

/-! ## Disk control: replacing an entry in place -/

/-- C8: `replace_image_index(i, path)` with a present path and `i` in range
returns true, makes entry `i` equal to `path`, keeps the number of entries and
every other entry, and changes no other part of the state (`image_index` and
`eject_state` in particular). -/
theorem replace_entry_in_place (s : State) (i : Nat) (p : String)
    (hi : i < s.disk_images.length) :
    (replace_image_index s i (some p)).1 = true ∧
    (replace_image_index s i (some p)).2.disk_images[i]? = some (some p) ∧
    (replace_image_index s i (some p)).2.disk_images.length = s.disk_images.length ∧
    (∀ j, j ≠ i →
      (replace_image_index s i (some p)).2.disk_images[j]? = s.disk_images[j]?) ∧
    (replace_image_index s i (some p)).2.image_index = s.image_index ∧
    (replace_image_index s i (some p)).2.eject_state = s.eject_state ∧
    (replace_image_index s i (some p)).2
      = { s with disk_images := s.disk_images.set i (some p) } := by
  have hnot : ¬ (i ≥ s.disk_images.length) := by omega
  simp only [replace_image_index, hnot, if_false, List.length_set, true_and]
  refine ⟨?_, ?_, trivial⟩
  · simp [List.getElem?_set, hi]
  · intro j hj
    exact List.getElem?_set_ne (Ne.symm hj)

/-- Witness of `replace_entry_in_place`: entry 1 of `[A, B, C]` renamed. -/
theorem replace_entry_in_place_witness :
    1 < state_ABC.disk_images.length ∧
      (replace_image_index state_ABC 1 (some "D")).1 = true ∧
      (replace_image_index state_ABC 1 (some "D")).2.disk_images
        = [some "A", some "D", some "C"] ∧
      (replace_image_index state_ABC 1 (some "D")).2.image_index = state_ABC.image_index :=
  ⟨by decide, (replace_entry_in_place state_ABC 1 "D" (by decide)).1, rfl,
   (replace_entry_in_place state_ABC 1 "D" (by decide)).2.2.2.2.1⟩

/-! ## Audio hand-off: overflow -/

theorem take_set_pair (a b : Int) :
    ∀ (m : Nat) (l : List Int), m + 2 ≤ l.length →
      ((l.set m a).set (m + 1) b).take (m + 2) = l.take m ++ [a, b] := by
  intro m
  induction m with
  | zero =>
    intro l hl
    match l, hl with
    | x :: y :: t, _ => simp
  | succ m ih =>
    intro l hl
    match l, hl with
    | x :: t, hl =>
      have ht : m + 2 ≤ t.length := by simpa using hl
      simpa using ih t ht

theorem interleave_length (fs : List StereoOut32) : (interleave fs).length = 2 * fs.length := by
  induction fs with
  | nil => rfl
  | cons f fs ih => simp [interleave, frame_samples, ih]; omega

theorem interleave_append (fs gs : List StereoOut32) :
    interleave (fs ++ gs) = interleave fs ++ interleave gs := by
  induction fs with
  | nil => rfl
  | cons f fs ih => simp [interleave, ih]

theorem Write_room (s : State) (f : StereoOut32) (n : Nat)
    (hpos : s.write_pos = 2 * (n : Int)) (hn : n < 0x800) (hbuf : s.snd_buffer.length = 0x1000) :
    (SndBuffer.Write s f).write_pos = 2 * ((n + 1 : Nat) : Int) ∧
    (SndBuffer.Write s f).snd_buffer.length = 0x1000 ∧
    (SndBuffer.Write s f).snd_buffer.take (2 * (n + 1))
      = s.snd_buffer.take (2 * n) ++ frame_samples f ∧
    (SndBuffer.Write s f).trace = s.trace := by
  have hlt : s.write_pos < (samples_max <<< 1 : Int) := by
    rw [samples_max_shift, hpos]; omega
  have h1 : s.write_pos.toNat = 2 * n := by omega
  have h2 : (s.write_pos + 1).toNat = 2 * n + 1 := by omega
  simp only [SndBuffer.Write, hlt, if_true, h1, h2, List.length_set]
  refine ⟨by push_cast; omega, hbuf, ?_, trivial⟩
  have := take_set_pair (to_s16 (f.Left >>> 12)) (to_s16 (f.Right >>> 12)) (2 * n)
    s.snd_buffer (by omega)
  simpa [frame_samples, Nat.mul_add] using this

theorem Write_full (s : State) (f : StereoOut32) (hpos : s.write_pos = 0x1000) :
    SndBuffer.Write s f = s := by
  have hge : ¬ s.write_pos < (samples_max <<< 1 : Int) := by
    rw [samples_max_shift, hpos]; decide
  simp [SndBuffer.Write, hge]

theorem write_all_full (fs : List StereoOut32) (s : State) (hpos : s.write_pos = 0x1000) :
    write_all s fs = s := by
  induction fs with
  | nil => rfl
  | cons f fs ih => simpa [write_all, Write_full s f hpos] using ih

theorem write_all_room (fs : List StereoOut32) :
    ∀ (s : State) (n : Nat), s.write_pos = 2 * (n : Int) → n + fs.length ≤ 0x800 →
      s.snd_buffer.length = 0x1000 →
      (write_all s fs).write_pos = 2 * ((n + fs.length : Nat) : Int) ∧
      (write_all s fs).snd_buffer.length = 0x1000 ∧
      (write_all s fs).snd_buffer.take (2 * (n + fs.length))
        = s.snd_buffer.take (2 * n) ++ interleave fs ∧
      (write_all s fs).trace = s.trace := by
  induction fs with
  | nil =>
    intro s n hpos _ hbuf
    simp [write_all, interleave, hpos, hbuf]
  | cons f fs ih =>
    intro s n hpos hn hbuf
    simp only [List.length_cons] at hn
    obtain ⟨w1, w2, w3, w4⟩ := Write_room s f n hpos (by omega) hbuf
    obtain ⟨r1, r2, r3, r4⟩ := ih (SndBuffer.Write s f) (n + 1) w1 (by omega) w2
    have hlen : n + (f :: fs).length = n + 1 + fs.length := by
      simp only [List.length_cons]; omega
    have hrun : write_all s (f :: fs) = write_all (SndBuffer.Write s f) fs := rfl
    rw [hrun, hlen]
    refine ⟨r1, r2, ?_, r4.trans w4⟩
    rw [r3, w3, interleave, List.append_assoc]

/-- C9: from an empty buffer, writing `0x800 + k` frames (`k > 0`) and then
draining hands the host one batch of exactly `0x800` frames: the first `0x800`
frames written, in order, each as its pair of `s16` samples; the last `k`
frames are not in it; the cursor is back at 0. -/
theorem overflow_keeps_first_capacity_frames (s : State) (fs : List StereoOut32) (k : Nat)
    (hk : 0 < k) (hpos : s.write_pos = 0) (hbuf : s.snd_buffer.length = 0x1000)
    (hlen : fs.length = 0x800 + k) :
    (retro_run_drain (write_all s fs)).trace
      = s.trace ++ [Effect.batch_cb (interleave (fs.take 0x800)) 0x800] ∧
    (retro_run_drain (write_all s fs)).write_pos = 0 ∧
    (fs.take 0x800).length = 0x800 ∧
    fs = fs.take 0x800 ++ fs.drop 0x800 ∧
    (fs.drop 0x800).length = k ∧
    fs.drop 0x800 ≠ [] := by
  have hsplit : fs = fs.take 0x800 ++ fs.drop 0x800 := (List.take_append_drop _ _).symm
  have htake : (fs.take 0x800).length = 0x800 := by
    rw [List.length_take]; omega
  have hdrop : (fs.drop 0x800).length = k := by
    rw [List.length_drop]; omega
  obtain ⟨r1, r2, r3, r4⟩ := write_all_room (fs.take 0x800) s 0 (by simpa using hpos)
    (by omega) hbuf
  have hfull : (write_all s (fs.take 0x800)).write_pos = 0x1000 := by
    rw [r1, htake]; rfl
  have hall : write_all s fs = write_all s (fs.take 0x800) := by
    have h1 : write_all s fs
        = write_all (write_all s (fs.take 0x800)) (fs.drop 0x800) := by
      unfold write_all
      rw [← List.foldl_append, List.take_append_drop]
    rw [h1, write_all_full _ _ hfull]
  have hbatch : (write_all s (fs.take 0x800)).snd_buffer.take 0x1000
      = interleave (fs.take 0x800) := by
    have := r3
    rw [htake] at this
    simpa using this
  have hgt : (write_all s (fs.take 0x800)).write_pos > (0x200 <<< 1 : Int) := by
    rw [hfull]; decide
  have hshift : ((0x1000 : Int) >>> 1) = 0x800 := by decide
  refine ⟨?_, ?_, htake, hsplit, hdrop, ?_⟩
  · rw [hall]
    unfold retro_run_drain
    rw [if_pos hgt]
    simp only [State.emit, hfull, hshift, r4]
    have h2 : 2 * (0x800 : Int).toNat = 0x1000 := by decide
    rw [h2, hbatch]
  · rw [hall]
    unfold retro_run_drain
    rw [if_pos hgt]
  · intro hnil
    rw [hnil] at hdrop
    simp at hdrop
    omega

/-- Witness of `overflow_keeps_first_capacity_frames`: `0x800` frames and one
more written into the initial state; the batch is the first `0x800` frames. -/
theorem overflow_keeps_first_capacity_frames_witness :
    0 < 1 ∧ State.init.write_pos = 0 ∧ State.init.snd_buffer.length = 0x1000 ∧
      example_frames.length = 0x800 + 1 ∧
      example_frames.take 0x800 = List.replicate 0x800 ⟨4096, -4096⟩ ∧
      frame_samples ⟨4096, -4096⟩ = [1, -1] ∧
      (retro_run_drain (write_all State.init example_frames)).trace
        = State.init.trace ++ [Effect.batch_cb (interleave (example_frames.take 0x800)) 0x800] ∧
      (retro_run_drain (write_all State.init example_frames)).write_pos = 0 := by
  have hlen : example_frames.length = 0x800 + 1 := by
    rw [example_frames, List.length_append, List.length_replicate]; rfl
  have hbuf : State.init.snd_buffer.length = 0x1000 := List.length_replicate _ _
  have h := overflow_keeps_first_capacity_frames State.init example_frames 1 (by decide) rfl
    hbuf hlen
  refine ⟨by decide, rfl, hbuf, hlen, ?_, by decide, h.1, h.2.1⟩
  unfold example_frames
  exact List.take_left' (List.length_replicate _ _)

/-! ## Save states: restoring -/

theorem retro_unserialize_fst {M : Type} (ops : SaveStateOps M) (s : State) (m : M)
    (data : List Nat) (size : Nat) : (retro_unserialize ops s m data size).1 = true :=
  rfl

/-- C10, as stated, fails: with the region sizes of the PS2 memory map the
minimum length is 44228608 bytes, and for a buffer one byte shorter
`retro_unserialize` returns true, not a failure. -/
theorem short_buffer_not_rejected :
    retro_serialize_size example_sizes = 44228608 ∧
      (List.replicate (retro_serialize_size example_sizes - 1) 0).length
        < retro_serialize_size example_sizes ∧
      (retro_unserialize example_ops State.init []
        (List.replicate (retro_serialize_size example_sizes - 1) 0)
        (retro_serialize_size example_sizes - 1)).1 = true ∧
      ¬ (∀ (c : MemSizes) (data : List Nat), data.length < retro_serialize_size c →
          (retro_unserialize example_ops State.init [] data data.length).1 = false) := by
  have hsize : retro_serialize_size example_sizes = 44228608 := by decide
  have hshort : (List.replicate (retro_serialize_size example_sizes - 1) 0).length
      < retro_serialize_size example_sizes := by
    rw [List.length_replicate, hsize]; decide
  refine ⟨hsize, hshort, retro_unserialize_fst _ _ _ _ _, ?_⟩
  intro h
  have hfalse := h example_sizes _ hshort
  rw [retro_unserialize_fst] at hfalse
  exact Bool.noConfusion hfalse

/-- C10, amended: `retro_unserialize` makes no length check.  For every buffer
and every `size` it returns true, having handed the `size` supplied bytes to
the loader and the bytes from the loader's block pointer on to the SPU2 thaw,
between the pause and the resume of the core thread. -/
theorem retro_unserialize_always_succeeds {M : Type} (ops : SaveStateOps M) (s : State)
    (m : M) (data : List Nat) (size : Nat) :
    (retro_unserialize ops s m data size).1 = true ∧
    (retro_unserialize ops s m data size).2.2
      = ops.ThawIt ((data.take size).drop (ops.FreezeAll_load (data.take size) m).2)
          (ops.FreezeAll_load (data.take size) m).1 ∧
    (retro_unserialize ops s m data size).2.1.trace = s.trace ++
      [Effect.SetVsyncQueueSize 100, Effect.SignalVsync, Effect.Pause,
        Effect.SetVsyncQueueSize 2, Effect.Flush, Effect.FreezeAll_load, Effect.ThawIt,
        Effect.Resume] := by
  refine ⟨rfl, rfl, ?_⟩
  simp [retro_unserialize, State.emit, State.setVsyncQueueSize]

/-! ## Save states: the reported size -/

theorem region_sizes_sum (c : MemSizes) : (region_sizes c).sum = retro_serialize_size c := by
  simp only [region_sizes, retro_serialize_size, List.sum_cons, List.sum_nil]
  omega

theorem filled_machine_sizes (c : MemSizes) (b : Nat) (spu2 : List Nat) :
    (filled_machine c b spu2).regions.map List.length = region_sizes c := by
  simp [filled_machine, region_sizes]

/-- C11, as stated, fails: with the region sizes of the PS2 memory map and an
audio-subsystem block of four bytes, the sizes of the RegionSequence add up to
44228612 bytes, while `retro_serialize_size` reports 44228608. -/
theorem serialize_size_omits_audio_block :
    retro_serialize_size example_sizes = 44228608 ∧
      (snapshot_region_sizes spec_ops example_sizes
        (filled_machine example_sizes 0 [1, 2, 3, 4])).sum = 44228612 ∧
      retro_serialize_size example_sizes ≠
        (snapshot_region_sizes spec_ops example_sizes
          (filled_machine example_sizes 0 [1, 2, 3, 4])).sum := by
  decide

/-- C11, amended: `retro_serialize_size` equals the sum of the byte sizes of
the fixed-size regions only (main RAM, scratch memory, hardware registers, IOP
RAM, IOP hardware registers, VU0 and VU1 program and data memory, the reserved
block); the size of the audio-subsystem block that `retro_serialize` stores
last is not part of it, so the whole RegionSequence is longer by that size. -/
theorem serialize_size_is_fixed_sum (c : MemSizes) :
    retro_serialize_size c = (region_sizes c).sum ∧
    ∀ (M : Type) (ops : SaveStateOps M) (m : M),
      (snapshot_region_sizes ops c m).sum
        = retro_serialize_size c + (ops.FreezeIt m).length := by
  refine ⟨(region_sizes_sum c).symm, ?_⟩
  intro M ops m
  simp [snapshot_region_sizes, region_sizes_sum]

/-! ## Save states: the round trip -/

theorem retro_serialize_snapshot {M : Type} (ops : SaveStateOps M) (s : State) (m : M)
    (data : List Nat) (size : Nat) :
    (retro_serialize ops s m data size).2.2
      = ops.FreezeAll_save m ++ (ops.FreezeIt m
          ++ data.drop ((ops.FreezeAll_save m).length + (ops.FreezeIt m).length)) := by
  simp only [retro_serialize, memcpy, List.take_zero, List.nil_append, Nat.zero_add]
  rw [List.take_left, List.drop_append, List.drop_drop, List.append_assoc]

theorem read_regions_flatten :
    ∀ (old new : List (List Nat)) (rest : List Nat),
      old.map List.length = new.map List.length →
      read_regions old (new.flatten ++ rest) = new := by
  intro old
  induction old with
  | nil =>
    intro new rest h
    cases new with
    | nil => rfl
    | cons r rs => simp at h
  | cons r' rs' ih =>
    intro new rest h
    cases new with
    | nil => simp at h
    | cons r rs =>
      simp only [List.map_cons, List.cons.injEq] at h
      obtain ⟨hlen, htail⟩ := h
      have h1 : (r ++ (rs.flatten ++ rest)).take r'.length = r := by
        rw [hlen]; exact List.take_left _ _
      have h2 : r'.drop (r ++ (rs.flatten ++ rest)).length = [] := by
        apply List.drop_eq_nil_of_le
        rw [List.length_append]; omega
      have h3 : (r ++ (rs.flatten ++ rest)).drop r'.length = rs.flatten ++ rest := by
        rw [hlen]; exact List.drop_left _ _
      simp only [read_regions, List.flatten_cons, List.append_assoc, h1, h2, h3,
        List.append_nil, ih rs rest htail]

theorem restored_machine (c : MemSizes) (s s' : State) (m m' : Machine) (data : List Nat)
    (size : Nat)
    (hm : m.regions.map List.length = region_sizes c)
    (hm' : m'.regions.map List.length = region_sizes c)
    (hsize : retro_serialize_size c ≤ size) :
    (retro_unserialize spec_ops s' m'
        (retro_serialize spec_ops s m data size).2.2 size).2.2
      = { regions := m.regions,
          spu2 :=
            ((m.spu2 ++ data.drop (retro_serialize_size c + m.spu2.length)).take
                (size - retro_serialize_size c)).take m'.spu2.length
              ++ m'.spu2.drop
                ((m.spu2 ++ data.drop (retro_serialize_size c + m.spu2.length)).take
                  (size - retro_serialize_size c)).length } := by
  have hF : m.regions.flatten.length = retro_serialize_size c := by
    rw [List.length_flatten, hm, region_sizes_sum]
  have hidx : (m'.regions.map List.length).sum = retro_serialize_size c := by
    rw [hm', region_sizes_sum]
  have hsnap := retro_serialize_snapshot spec_ops s m data size
  have hsave : spec_ops.FreezeAll_save m = m.regions.flatten := rfl
  have hblk : spec_ops.FreezeIt m = m.spu2 := rfl
  rw [hsave, hblk, hF] at hsnap
  have htake : (retro_serialize spec_ops s m data size).2.2.take size
      = m.regions.flatten
        ++ (m.spu2 ++ data.drop (retro_serialize_size c + m.spu2.length)).take
            (size - retro_serialize_size c) := by
    rw [hsnap, List.take_append_eq_append_take, hF,
      List.take_of_length_le (by omega : m.regions.flatten.length ≤ size)]
  have hread := read_regions_flatten m'.regions m.regions
    ((m.spu2 ++ data.drop (retro_serialize_size c + m.spu2.length)).take
      (size - retro_serialize_size c)) (by rw [hm, hm'])
  have hdrop : (m.regions.flatten
        ++ (m.spu2 ++ data.drop (retro_serialize_size c + m.spu2.length)).take
            (size - retro_serialize_size c)).drop (retro_serialize_size c)
      = (m.spu2 ++ data.drop (retro_serialize_size c + m.spu2.length)).take
          (size - retro_serialize_size c) := List.drop_left' hF
  clear hsnap
  generalize (retro_serialize spec_ops s m data size).2.2 = snap at htake ⊢
  simp only [retro_unserialize, spec_ops, htake, hread, hidx, hdrop]

/-- Round trip on the model of the collaborators given by the specification,
for a buffer with room behind the regions: capturing with `retro_serialize`
and restoring the first `size` bytes with `retro_unserialize` over a changed
machine whose audio-subsystem block has the same size leaves every fixed-size
region equal to its captured contents when `size` is at least
`retro_serialize_size()`, and brings back the whole machine when `size` is at
least `retro_serialize_size()` plus the size of the block. -/
theorem snapshot_round_trip (c : MemSizes) (s s' : State) (m m' : Machine) (data : List Nat)
    (size : Nat)
    (hm : m.regions.map List.length = region_sizes c)
    (hm' : m'.regions.map List.length = region_sizes c)
    (hblk : m'.spu2.length = m.spu2.length)
    (hsize : retro_serialize_size c ≤ size) :
    (retro_serialize spec_ops s m data size).1 = true ∧
    (retro_unserialize spec_ops s' m'
        (retro_serialize spec_ops s m data size).2.2 size).1 = true ∧
    (retro_unserialize spec_ops s' m'
        (retro_serialize spec_ops s m data size).2.2 size).2.2.regions = m.regions ∧
    (retro_serialize_size c + m.spu2.length ≤ size →
      (retro_unserialize spec_ops s' m'
          (retro_serialize spec_ops s m data size).2.2 size).2.2 = m) := by
  have hres := restored_machine c s s' m m' data size hm hm' hsize
  refine ⟨rfl, rfl, ?_, ?_⟩
  · rw [hres]
  · intro hroom
    rw [hres]
    have h1 : (m.spu2 ++ data.drop (retro_serialize_size c + m.spu2.length)).take
        (size - retro_serialize_size c)
        = m.spu2 ++ (data.drop (retro_serialize_size c + m.spu2.length)).take
            (size - retro_serialize_size c - m.spu2.length) := by
      rw [List.take_append_eq_append_take,
        List.take_of_length_le (by omega : m.spu2.length ≤ size - retro_serialize_size c)]
    rw [h1, hblk, List.take_left,
      List.drop_eq_nil_of_le (by rw [List.length_append]; omega), List.append_nil]

/-- Witness of `snapshot_round_trip`: a machine of bytes 7 with the block
`[1, 2, 3, 4]`, restored over a machine of bytes 0 from a buffer with room for
the block. -/
theorem snapshot_round_trip_witness :
    (filled_machine example_sizes 7 [1, 2, 3, 4]).regions.map List.length
        = region_sizes example_sizes ∧
      (filled_machine example_sizes 0 [0, 0, 0, 0]).regions.map List.length
        = region_sizes example_sizes ∧
      retro_serialize_size example_sizes + 4 ≤ retro_serialize_size example_sizes + 4 ∧
      (retro_unserialize spec_ops State.init (filled_machine example_sizes 0 [0, 0, 0, 0])
        (retro_serialize spec_ops State.init (filled_machine example_sizes 7 [1, 2, 3, 4]) []
          (retro_serialize_size example_sizes + 4)).2.2
        (retro_serialize_size example_sizes + 4)).2.2
        = filled_machine example_sizes 7 [1, 2, 3, 4] :=
  ⟨filled_machine_sizes _ _ _, filled_machine_sizes _ _ _, le_refl _,
   (snapshot_round_trip example_sizes State.init State.init
      (filled_machine example_sizes 7 [1, 2, 3, 4]) (filled_machine example_sizes 0 [0, 0, 0, 0])
      [] (retro_serialize_size example_sizes + 4)
      (filled_machine_sizes _ _ _) (filled_machine_sizes _ _ _) rfl
      (Nat.le_add_right _ _)).2.2.2 (le_refl _)⟩

/-! ## The quiescence order -/

/-- C13: `retro_serialize`, `retro_unserialize` and a `set_eject_state` that
changes the flag each append to the trace the quiescence preamble (queue bound
to 100, `SignalVsync`, `Pause`, queue bound back to 2), then the effects of the
state operation (flush and freeze; flush and thaw; tray and mount calls), none
of which is a protocol step, then `Resume` as the last effect; and
`VsyncQueueSize` is 2 when the call returns. -/
theorem quiescence_order {M : Type} (ops : SaveStateOps M) (s : State) (m : M)
    (data : List Nat) (size : Nat) (b : Bool) :
    ((retro_serialize ops s m data size).2.1.trace
        = s.trace ++ quiesce_preamble
          ++ [Effect.Flush, Effect.FreezeAll_save, Effect.FreezeIt] ++ [Effect.Resume] ∧
      (retro_serialize ops s m data size).2.1.VsyncQueueSize = 2) ∧
    ((retro_unserialize ops s m data size).2.1.trace
        = s.trace ++ quiesce_preamble
          ++ [Effect.Flush, Effect.FreezeAll_load, Effect.ThawIt] ++ [Effect.Resume] ∧
      (retro_unserialize ops s m data size).2.1.VsyncQueueSize = 2) ∧
    (s.eject_state ≠ b →
      (∃ middle : List Effect,
        (set_eject_state s b).2.trace
          = s.trace ++ quiesce_preamble ++ middle ++ [Effect.Resume] ∧
        middle ≠ [] ∧
        (∀ e ∈ middle, e.is_protocol_step = false)) ∧
      (set_eject_state s b).2.VsyncQueueSize = 2) := by
  refine ⟨⟨?_, ?_⟩, ⟨?_, ?_⟩, ?_⟩
  · simp [retro_serialize, State.emit, State.setVsyncQueueSize, quiesce_preamble]
  · simp [retro_serialize, State.emit, State.setVsyncQueueSize]
  · simp [retro_unserialize, State.emit, State.setVsyncQueueSize, quiesce_preamble]
  · simp [retro_unserialize, State.emit, State.setVsyncQueueSize]
  · intro hne
    cases b with
    | true =>
      refine ⟨⟨[Effect.cdvdCtrlTrayOpen], ?_, by simp, by simp [Effect.is_protocol_step]⟩, ?_⟩
      · simp [set_eject_state, hne, State.emit, State.setVsyncQueueSize, quiesce_preamble]
      · simp [set_eject_state, hne, State.emit, State.setVsyncQueueSize]
    | false =>
      by_cases hout :
          s.image_index < 0 ∨ s.image_index ≥ int_of_unsigned s.disk_images.length
      · refine ⟨⟨[Effect.cdvdCtrlTrayClose], ?_, by simp,
          by simp [Effect.is_protocol_step]⟩, ?_⟩
        · simp [set_eject_state, hne, hout, State.emit, State.setVsyncQueueSize,
            quiesce_preamble]
        · simp [set_eject_state, hne, hout, State.emit, State.setVsyncQueueSize]
      · refine ⟨⟨[Effect.CDVDsys_SetFile CDVD_SourceType.Iso
            (string_of_cstr (s.disk_images.getD s.image_index.toNat none)),
            Effect.cdvdCtrlTrayClose], ?_,
          by simp, by simp [Effect.is_protocol_step]⟩, ?_⟩
        · simp [set_eject_state, hne, hout, State.emit, State.setVsyncQueueSize,
            quiesce_preamble]
        · simp [set_eject_state, hne, hout, State.emit, State.setVsyncQueueSize]

/-- Witness of `quiescence_order`: ejecting from the inserted state `[A, B, C]`. -/
theorem quiescence_order_witness :
    state_ABC.eject_state ≠ true ∧
      (set_eject_state state_ABC true).2.trace
        = state_ABC.trace ++ quiesce_preamble ++ [Effect.cdvdCtrlTrayOpen] ++ [Effect.Resume] ∧
      (set_eject_state state_ABC true).2.VsyncQueueSize = 2 :=
  ⟨by decide, by decide,
   ((quiescence_order example_ops state_ABC [] [] 0 true).2.2 (by decide)).2⟩

/-! ## Video geometry -/

/-- C14: `retro_get_system_av_info` reports 640 x 448 as the base size when the
renderer is "Software" or "Null", whatever the multiplier; otherwise 640 and
448 times the multiplier (for a multiplier whose products fit an `int`); in
every case the maximal size is the base size and the sample rate is 48000. -/
theorem av_info_geometry (renderer : String) (upscale_multiplier : Int) :
    ((renderer = "Software" ∨ renderer = "Null") →
      (retro_get_system_av_info renderer upscale_multiplier).base_width = 640 ∧
      (retro_get_system_av_info renderer upscale_multiplier).base_height = 448) ∧
    (¬ (renderer = "Software" ∨ renderer = "Null") →
      0 ≤ upscale_multiplier → 640 * upscale_multiplier < 2 ^ 31 →
      ((retro_get_system_av_info renderer upscale_multiplier).base_width : Int)
        = 640 * upscale_multiplier ∧
      ((retro_get_system_av_info renderer upscale_multiplier).base_height : Int)
        = 448 * upscale_multiplier) ∧
    (retro_get_system_av_info renderer upscale_multiplier).max_width
      = (retro_get_system_av_info renderer upscale_multiplier).base_width ∧
    (retro_get_system_av_info renderer upscale_multiplier).max_height
      = (retro_get_system_av_info renderer upscale_multiplier).base_height ∧
    (retro_get_system_av_info renderer upscale_multiplier).sample_rate = 48000 := by
  refine ⟨?_, ?_, rfl, rfl, rfl⟩
  · intro h
    simp [retro_get_system_av_info, h]
  · intro h h0 hlt
    have hw : (640 * upscale_multiplier) % 2 ^ 32 = 640 * upscale_multiplier :=
      Int.emod_eq_of_lt (by omega) (by omega)
    have hh : (448 * upscale_multiplier) % 2 ^ 32 = 448 * upscale_multiplier :=
      Int.emod_eq_of_lt (by omega) (by omega)
    simp only [retro_get_system_av_info, h, if_false, unsigned_of_int, hw, hh]
    constructor
    · exact Int.toNat_of_nonneg (by omega)
    · exact Int.toNat_of_nonneg (by omega)

/-- Witness of `av_info_geometry`: the software renderer at multiplier 4 and
the OpenGL renderer at multiplier 3. -/
theorem av_info_geometry_witness :
    (retro_get_system_av_info "Software" 4).base_width = 640 ∧
      (retro_get_system_av_info "Software" 4).base_height = 448 ∧
      ((retro_get_system_av_info "OpenGL" 3).base_width : Int) = 640 * 3 ∧
      ((retro_get_system_av_info "OpenGL" 3).base_height : Int) = 448 * 3 :=
  ⟨((av_info_geometry "Software" 4).1 (Or.inl rfl)).1,
   ((av_info_geometry "Software" 4).1 (Or.inl rfl)).2,
   ((av_info_geometry "OpenGL" 3).2.1 (by decide) (by decide) (by decide)).1,
   ((av_info_geometry "OpenGL" 3).2.1 (by decide) (by decide) (by decide)).2⟩

/-! ## Audio hand-off: the cursor invariant -/

theorem cursor_valid_apply (s : State) (op : AudioOp) (h : cursor_valid s) :
    cursor_valid (op.apply s) := by
  obtain ⟨heven, hnonneg, hle, hbuf⟩ := h
  simp only [samples_max] at hle hbuf
  cases op with
  | Write Sample =>
    simp only [AudioOp.apply, SndBuffer.Write, samples_max_shift]
    by_cases hroom : s.write_pos < 0x1000
    · simp only [hroom, if_true, cursor_valid, samples_max, List.length_set]
      refine ⟨by omega, by omega, by omega, hbuf⟩
    · simp only [hroom, if_false, cursor_valid, samples_max]
      exact ⟨heven, hnonneg, hle, hbuf⟩
  | drain =>
    simp only [AudioOp.apply, retro_run_drain]
    split_ifs
    · simp only [cursor_valid, samples_max, State.emit]
      exact ⟨by decide, by decide, by decide, hbuf⟩
    · simp only [cursor_valid, samples_max]
      exact ⟨heven, hnonneg, hle, hbuf⟩
  | Init =>
    simp only [AudioOp.apply, SndBuffer.Init, cursor_valid, samples_max]
    exact ⟨by decide, by decide, by decide, hbuf⟩
  | reset =>
    simp only [AudioOp.apply, retro_reset, cursor_valid, samples_max, State.emit]
    exact ⟨by decide, by decide, by decide, hbuf⟩
  | load_game bios_empty game fopen_ok magic hw_render =>
    simp only [AudioOp.apply, retro_load_game]
    split_ifs <;> simp only [cursor_valid, samples_max] <;>
      first
        | exact ⟨heven, hnonneg, hle, hbuf⟩
        | exact ⟨by decide, by decide, by decide, hbuf⟩

theorem cursor_valid_run (ops : List AudioOp) :
    ∀ s : State, cursor_valid s → cursor_valid (run_audio_ops s ops) := by
  induction ops with
  | nil => intro s h; exact h
  | cons op ops ih =>
    intro s h
    exact ih (op.apply s) (cursor_valid_apply s op h)

/-- C15: in every state reached from `write_pos = 0` by `SndBuffer::Write`,
the drain of `retro_run`, `SndBuffer::Init`, `retro_reset` and
`retro_load_game` calls, `write_pos` is even and lies between 0 and
`2 * samples_max` = 0x1000; so both stores of a `Write` that has room fall
inside `snd_buffer`; and a `Write` at `write_pos = 2 * samples_max` returns the
state unchanged. -/
theorem cursor_never_exceeds_capacity (s₀ : State) (ops : List AudioOp)
    (hpos : s₀.write_pos = 0) (hbuf : s₀.snd_buffer.length = 0x1000) :
    (run_audio_ops s₀ ops).write_pos % 2 = 0 ∧
    0 ≤ (run_audio_ops s₀ ops).write_pos ∧
    (run_audio_ops s₀ ops).write_pos ≤ 2 * samples_max ∧
    (2 * samples_max : Int) = 0x1000 ∧
    ((run_audio_ops s₀ ops).write_pos < 2 * samples_max →
      (run_audio_ops s₀ ops).write_pos.toNat + 1 < (run_audio_ops s₀ ops).snd_buffer.length) ∧
    (∀ Sample, (run_audio_ops s₀ ops).write_pos = 2 * samples_max →
      SndBuffer.Write (run_audio_ops s₀ ops) Sample = run_audio_ops s₀ ops) := by
  have h0 : cursor_valid s₀ := by
    refine ⟨by rw [hpos]; decide, by rw [hpos], by rw [hpos]; decide, ?_⟩
    rw [hbuf]; decide
  obtain ⟨heven, hnonneg, hle, hlen⟩ := cursor_valid_run ops s₀ h0
  refine ⟨heven, hnonneg, hle, by decide, ?_, ?_⟩
  · intro hroom
    simp only [samples_max] at hroom hlen
    omega
  · intro Sample hfull
    exact Write_full _ Sample (by rw [hfull]; decide)

/-- Witness of `cursor_never_exceeds_capacity`: a write, a reset, two writes, a
drain and a game load from the initial state. -/
theorem cursor_never_exceeds_capacity_witness :
    State.init.write_pos = 0 ∧ State.init.snd_buffer.length = 0x1000 ∧
      (run_audio_ops State.init
        [AudioOp.Write ⟨4096, -4096⟩, AudioOp.reset, AudioOp.Write ⟨8192, 0⟩,
          AudioOp.Write ⟨0, 8192⟩, AudioOp.drain,
          AudioOp.load_game false none true 0 true]).write_pos ≤ 2 * samples_max :=
  ⟨rfl, List.length_replicate _ _,
   (cursor_never_exceeds_capacity State.init _ rfl (List.length_replicate _ _)).2.2.1⟩

/-! ## Audio hand-off: the drain -/

theorem shiftRight_one (x : Int) : x >>> (1 : Int) = x / 2 := by
  have h1 : (1 : Int) = ((1 : Nat) : Int) := rfl
  rw [h1]
  cases x with
  | ofNat m =>
    rw [Int.ofNat_eq_coe, Int.shiftRight_coe_nat, Nat.shiftRight_eq_div_pow]
    push_cast
    omega
  | negSucc m =>
    rw [Int.shiftRight_negSucc, Nat.shiftRight_eq_div_pow]
    simp only [Int.negSucc_eq]
    push_cast
    omega

/-- C16: the drain of `retro_run` calls the host sink exactly once when
`write_pos > 0x400` (more than 0x200 frames), with all `write_pos / 2` buffered
frames, and resets the cursor, leaving the buffer as it is; otherwise it
returns the state unchanged, so the sink is not called.  After pushing the
frames `fs` from an empty buffer, the batch is `fs` as interleaved `s16` pairs
in push order. -/
theorem drain_above_threshold (s : State) (fs : List StereoOut32) :
    (s.write_pos > 0x400 →
      (retro_run_drain s).trace = s.trace ++
        [Effect.batch_cb (s.snd_buffer.take (2 * (s.write_pos / 2).toNat)) (s.write_pos / 2)] ∧
      (retro_run_drain s).write_pos = 0 ∧
      (retro_run_drain s).snd_buffer = s.snd_buffer) ∧
    (s.write_pos ≤ 0x400 → retro_run_drain s = s) ∧
    (s.write_pos = 0 → s.snd_buffer.length = 0x1000 → fs.length ≤ 0x800 →
      (0x200 < fs.length →
        (retro_run_drain (write_all s fs)).trace
          = s.trace ++ [Effect.batch_cb (interleave fs) (fs.length : Int)] ∧
        (retro_run_drain (write_all s fs)).write_pos = 0) ∧
      (fs.length ≤ 0x200 → retro_run_drain (write_all s fs) = write_all s fs)) := by
  have hthr : (((0x200 <<< 1 : Nat) : Int)) = 0x400 := by decide
  have hshift : ∀ x : Int, x >>> 1 = x / 2 := shiftRight_one
  have above : ∀ t : State, t.write_pos > 0x400 →
      (retro_run_drain t).trace = t.trace ++
        [Effect.batch_cb (t.snd_buffer.take (2 * (t.write_pos / 2).toNat)) (t.write_pos / 2)] ∧
      (retro_run_drain t).write_pos = 0 ∧
      (retro_run_drain t).snd_buffer = t.snd_buffer := by
    intro t h
    have hc : t.write_pos > ((0x200 <<< 1 : Nat) : Int) := by rw [hthr]; exact h
    unfold retro_run_drain
    rw [if_pos hc]
    simp [State.emit, hshift]
  have below : ∀ t : State, t.write_pos ≤ 0x400 → retro_run_drain t = t := by
    intro t h
    have hc : ¬ t.write_pos > ((0x200 <<< 1 : Nat) : Int) := by rw [hthr]; omega
    unfold retro_run_drain
    rw [if_neg hc]
  refine ⟨above s, below s, ?_⟩
  intro hpos hbuf hlen
  obtain ⟨r1, _, r3, r4⟩ := write_all_room fs s 0 (by simpa using hpos) (by omega) hbuf
  simp only [Nat.zero_add, Nat.mul_zero, List.take_zero, List.nil_append] at r1 r3
  refine ⟨?_, ?_⟩
  · intro hmany
    obtain ⟨a1, a2, _⟩ := above (write_all s fs) (by rw [r1]; omega)
    refine ⟨?_, a2⟩
    have hhalf : (write_all s fs).write_pos / 2 = (fs.length : Int) := by
      rw [r1]; omega
    rw [a1, r4, hhalf, Int.toNat_ofNat, r3]
  · intro hfew
    exact below (write_all s fs) (by rw [r1]; omega)

/-- Witness of `drain_above_threshold`: `0x300` frames pushed into the initial
state are handed over as one batch; an empty buffer is left alone. -/
theorem drain_above_threshold_witness :
    State.init.write_pos = 0 ∧ State.init.snd_buffer.length = 0x1000 ∧
      example_frames_short.length = 0x300 ∧
      (retro_run_drain (write_all State.init example_frames_short)).trace
        = State.init.trace
          ++ [Effect.batch_cb (interleave example_frames_short)
                (example_frames_short.length : Int)] ∧
      retro_run_drain State.init = State.init := by
  have hlen : example_frames_short.length = 0x300 := List.length_replicate _ _
  have h := drain_above_threshold State.init example_frames_short
  refine ⟨rfl, List.length_replicate _ _, hlen, ?_, h.2.1 (by decide)⟩
  exact ((h.2.2 rfl (List.length_replicate _ _) (by rw [hlen]; decide)).1
    (by rw [hlen]; decide)).1

/-! ## Reset -/

end Pcsx2
